import Mathlib

/-!
Verification of the NodeClaim liveness reconciler
(`pkg/controllers/nodeclaim/lifecycle/liveness.go`).

The reconciler is a single bounded synchronous pass over one claim:
it reads the claim's `Launched` and `Registered` status conditions,
compares the elapsed time since the relevant condition's
`lastTransitionTime` against a per-stage timeout, and either requests
a requeue or deletes the claim (propagating a registration-health
signal to the owning NodePool first on the registration path).

The embedding below is a direct functional translation:
  * store interactions (`kubeClient.Get`, `kubeClient.Delete`,
    `kubeClient.Status().Patch`) and the disruption-counter increment
    become elements of an ordered `Effect` trace;
  * the store's responses are supplied by an `Env` oracle (the result
    of the i-th Delete call, the Get of the NodePool, the conditional
    status Patch), so every control path of the Go code is reachable;
  * the clock is a single instant `now : Int` (nanoseconds, matching
    Go `time.Duration`); `clock.Since(t) = now - t`;
  * Go `error` values are `Option KErr` (`none` = nil), with
    `client.IgnoreNotFound` and `errors.IsConflict` translated
    explicitly.
-/

/-- Tri-state value of a status condition (`metav1.ConditionStatus`). -/
inductive CondStatus
  | cTrue
  | cFalse
  | cUnknown
deriving DecidableEq, Repr

/-- A named status condition as read off a claim or pool: status, reason,
message and last transition time (nanoseconds). -/
structure Condition where
  status : CondStatus
  reason : String
  message : String
  lastTransitionTime : Int
deriving DecidableEq, Repr

/-- `(*status.Condition).IsTrue`: a nil (absent) condition is not True. -/
def condIsTrue : Option Condition → Bool
  | none => false
  | some c => c.status = CondStatus.cTrue

/-- `(*status.Condition).IsUnknown`: a nil (absent) condition counts as
Unknown in the operator status package. -/
def condIsUnknown : Option Condition → Bool
  | none => true
  | some c => c.status = CondStatus.cUnknown

/-- `launchCondition.Reason` (nil case unreachable from `Reconcile`,
which returns before this read whenever `Launched` is absent). -/
def condReason : Option Condition → String
  | none => ""
  | some c => c.reason

/-- `launchCondition.Message` (nil case unreachable from `Reconcile`). -/
def condMessage : Option Condition → String
  | none => ""
  | some c => c.message

/-- The slice of a NodeClaim that `Liveness.Reconcile` reads: the two
status conditions and the two labels (a Go map lookup of a missing label
yields `""`, so `""` models an absent label). -/
structure NodeClaim where
  launched : Option Condition
  registered : Option Condition
  nodePoolLabel : String
  capacityTypeLabel : String
deriving DecidableEq, Repr

/-- The slice of a NodePool that the reconciler reads: its
NodeRegistrationHealthy status condition. -/
structure NodePool where
  nodeRegistrationHealthy : Option Condition
deriving DecidableEq, Repr

/-- Store errors distinguished by the code: NotFound
(`apierrors.IsNotFound`), Conflict (`apierrors.IsConflict`), anything
else. -/
inductive KErr
  | notFound
  | conflict
  | other
deriving DecidableEq, Repr

/-- `client.IgnoreNotFound`: maps a NotFound error to nil, passes
everything else through. -/
def ignoreNotFound : Option KErr → Option KErr
  | some KErr.notFound => none
  | e => e

/-- The condition content written by
`StatusConditions().SetFalse(type, reason, message)` in the conditional
status patch of the NodePool. -/
structure PatchCond where
  status : CondStatus
  reason : String
  message : String
deriving DecidableEq, Repr

/-- One store / observability interaction, in program order:
  * `deleteClaim r` — `kubeClient.Delete(ctx, nodeClaim)` issued from
    `deleteNodeClaimForTimeout` with timeout reason `r`;
  * `incCounter r p c` — `metrics.NodeClaimsDisruptedTotal.Inc` keyed by
    reason, nodepool label and capacity-type label;
  * `getNodePool n` — `kubeClient.Get` of the NodePool named `n`;
  * `patchNodePoolStatus c` — the optimistic-concurrency
    `kubeClient.Status().Patch` writing condition content `c`. -/
inductive Effect
  | deleteClaim (reason : String)
  | incCounter (reason : String) (nodePool : String) (capacityType : String)
  | getNodePool (name : String)
  | patchNodePoolStatus (cond : PatchCond)
deriving DecidableEq, Repr

/-- The environment: responses of the external store to each call the
reconciler can issue. `deleteResp i` answers the i-th Delete call of the
invocation (`none` = success); `getPoolResp` answers the NodePool Get;
`patchResp` answers the conditional status Patch. -/
structure Env where
  deleteResp : Nat → Option KErr
  getPoolResp : Except KErr NodePool
  patchResp : Option KErr

/-- Go `time.Minute` in nanoseconds. -/
def timeMinute : Int := 60000000000

/-- `registrationTimeout = time.Minute * 15`. -/
def registrationTimeout : Int := 15 * timeMinute

/-- `launchTimeout = time.Minute * 5`. -/
def launchTimeout : Int := 5 * timeMinute

/-- `registrationTimeoutReason`. -/
def registrationTimeoutReason : String := "registration_timeout"

/-- `launchTimeoutReason`. -/
def launchTimeoutReason : String := "launch_timeout"

/-- `NodeClaimTimeout`: a duration threshold paired with a reason label. -/
structure NodeClaimTimeout where
  duration : Int
  reason : String
deriving DecidableEq, Repr

/-- `RegistrationTimeout` package-level value. -/
def RegistrationTimeout : NodeClaimTimeout :=
  ⟨registrationTimeout, registrationTimeoutReason⟩

/-- `LaunchTimeout` package-level value. -/
def LaunchTimeout : NodeClaimTimeout :=
  ⟨launchTimeout, launchTimeoutReason⟩

/-- `reconcile.Result`: `⟨false, 0⟩` is done, `⟨true, 0⟩` is
requeue-immediately, `⟨false, d⟩` with `d > 0` is requeue-after `d`. -/
structure Result where
  requeue : Bool
  requeueAfter : Int
deriving DecidableEq, Repr

/-- The full outcome of one `Reconcile` invocation: the returned
`reconcile.Result`, the returned error, and the ordered trace of store
and observability effects issued along the way. -/
structure ReconOut where
  result : Result
  err : Option KErr
  effects : List Effect
deriving DecidableEq, Repr

/-- `Liveness.deleteNodeClaimForTimeout`: issue the Delete (the i-th
Delete of this invocation, answered by `env.deleteResp i`); on error,
return it with no counter increment; on success, increment the
disruption counter keyed by the timeout reason and the claim's
nodepool / capacity-type labels, and return nil. -/
def deleteNodeClaimForTimeout (env : Env) (i : Nat) (timeout : NodeClaimTimeout)
    (nc : NodeClaim) : Option KErr × List Effect :=
  match env.deleteResp i with
  | some e => (some e, [Effect.deleteClaim timeout.reason])
  | none =>
    (none, [Effect.deleteClaim timeout.reason,
            Effect.incCounter timeout.reason nc.nodePoolLabel nc.capacityTypeLabel])

/-- `Liveness.updateNodePoolRegistrationHealth`: if the claim carries a
nodepool label, Get the pool (propagating any Get error); if the pool's
NodeRegistrationHealthy condition is Unknown, SetFalse it — with reason
"RegistrationFailed" / message "Failed to register node" when the
claim's Launched condition is True, else with the Launched condition's
own reason and message — and issue the optimistic-concurrency status
Patch, ignoring a NotFound patch error. -/
def updateNodePoolRegistrationHealth (env : Env) (nc : NodeClaim) :
    Option KErr × List Effect :=
  let nodePoolName := nc.nodePoolLabel
  if nodePoolName ≠ "" then
    match env.getPoolResp with
    | Except.error e => (some e, [Effect.getNodePool nodePoolName])
    | Except.ok nodePool =>
      if condIsUnknown nodePool.nodeRegistrationHealthy then
        let newCond : PatchCond :=
          if condIsTrue nc.launched then
            ⟨CondStatus.cFalse, "RegistrationFailed", "Failed to register node"⟩
          else
            ⟨CondStatus.cFalse, condReason nc.launched, condMessage nc.launched⟩
        match env.patchResp with
        | some e =>
          if e = KErr.notFound then
            (none, [Effect.getNodePool nodePoolName, Effect.patchNodePoolStatus newCond])
          else
            (some e, [Effect.getNodePool nodePoolName, Effect.patchNodePoolStatus newCond])
        | none =>
          (none, [Effect.getNodePool nodePoolName, Effect.patchNodePoolStatus newCond])
      else (none, [Effect.getNodePool nodePoolName])
  else (none, [])

/-- The tail of `Liveness.Reconcile` starting at the `registered == nil`
check; `i` is the number of Delete calls already issued (0 or 1) and
`acc` the effects issued so far. The Go code reaches this point either
by skipping the launch branch (`Launched` is True) or by falling through
it after a successful launch-timeout delete. -/
def registrationStage (env : Env) (now : Int) (nc : NodeClaim) (i : Nat)
    (acc : List Effect) : ReconOut :=
  match nc.registered with
  | none => ⟨⟨true, 0⟩, none, acc⟩
  | some r =>
    let timeUntilTimeout := registrationTimeout - (now - r.lastTransitionTime)
    if 0 < timeUntilTimeout then ⟨⟨false, timeUntilTimeout⟩, none, acc⟩
    else
      let u := updateNodePoolRegistrationHealth env nc
      let acc2 := acc ++ u.2
      if ignoreNotFound u.1 ≠ none then
        if u.1 = some KErr.conflict then ⟨⟨true, 0⟩, none, acc2⟩
        else ⟨⟨false, 0⟩, u.1, acc2⟩
      else
        let d := deleteNodeClaimForTimeout env i RegistrationTimeout nc
        match d.1 with
        | some e =>
          if e = KErr.notFound then ⟨⟨false, 0⟩, none, acc2 ++ d.2⟩
          else ⟨⟨false, 0⟩, some e, acc2 ++ d.2⟩
        | none => ⟨⟨false, 0⟩, none, acc2 ++ d.2⟩

/-- `Liveness.Reconcile`: the timeout state machine. Note that after a
SUCCESSFUL launch-timeout delete the Go code does not return — it falls
through to the `registered == nil` check and the registration stage;
only the delete-error cases (`NotFound` → done, other → error) return
from the launch branch. -/
def Reconcile (env : Env) (now : Int) (nc : NodeClaim) : ReconOut :=
  if condIsTrue nc.registered then ⟨⟨false, 0⟩, none, []⟩
  else
    match nc.launched with
    | none => ⟨⟨true, 0⟩, none, []⟩
    | some launched =>
      if launched.status = CondStatus.cTrue then
        registrationStage env now nc 0 []
      else
        let timeUntilTimeout := launchTimeout - (now - launched.lastTransitionTime)
        if 0 < timeUntilTimeout then ⟨⟨false, timeUntilTimeout⟩, none, []⟩
        else
          let d := deleteNodeClaimForTimeout env 0 LaunchTimeout nc
          match d.1 with
          | some e =>
            if e = KErr.notFound then ⟨⟨false, 0⟩, none, d.2⟩
            else ⟨⟨false, 0⟩, some e, d.2⟩
          | none => registrationStage env now nc 1 d.2

/-- Number of claim Delete calls in an effect trace. -/
def deleteCount (effs : List Effect) : Nat :=
  effs.countP fun e => match e with
    | Effect.deleteClaim _ => true
    | _ => false

/-- Number of pool status Patch calls in an effect trace. -/
def patchCount (effs : List Effect) : Nat :=
  effs.countP fun e => match e with
    | Effect.patchNodePoolStatus _ => true
    | _ => false

/-- Number of disruption-counter increments in an effect trace. -/
def incCount (effs : List Effect) : Nat :=
  effs.countP fun e => match e with
    | Effect.incCounter _ _ _ => true
    | _ => false

/-! Concrete instances used by witnesses and counterexamples. -/

/-- An environment in which every store call succeeds and the pool's
registration-health condition is Unknown. -/
def envAllOk : Env :=
  { deleteResp := fun _ => none
    getPoolResp := Except.ok ⟨some ⟨CondStatus.cUnknown, "", "", 0⟩⟩
    patchResp := none }

/-- Like `envAllOk` but the conditional pool patch reports a Conflict. -/
def envConflict : Env :=
  { envAllOk with patchResp := some KErr.conflict }

/-- Like `envAllOk` but every claim Delete reports NotFound. -/
def envDelNotFound : Env :=
  { envAllOk with deleteResp := fun _ => some KErr.notFound }

/-- Like `envAllOk` but the pool's registration-health condition is
already False. -/
def envPoolFalse : Env :=
  { envAllOk with
      getPoolResp := Except.ok ⟨some ⟨CondStatus.cFalse, "RegistrationFailed", "old", 0⟩⟩ }

/-- Like `envAllOk` but the pool's registration-health condition is
already True. -/
def envPoolTrue : Env :=
  { envAllOk with getPoolResp := Except.ok ⟨some ⟨CondStatus.cTrue, "ok", "ok", 0⟩⟩ }

/-- A Launched condition that is True since instant 0. -/
def launchedTrue : Condition := ⟨CondStatus.cTrue, "Launched", "Node launched", 0⟩

/-- A Launched condition that is False since instant 0. -/
def launchedFalse : Condition :=
  ⟨CondStatus.cFalse, "LaunchFailed", "insufficient capacity", 0⟩

/-- A Registered condition that is Unknown since instant 0. -/
def registeredUnknown : Condition := ⟨CondStatus.cUnknown, "", "", 0⟩

/-- A Registered condition that is True since instant 0. -/
def registeredTrue : Condition := ⟨CondStatus.cTrue, "Registered", "Node registered", 0⟩

/-! Claim theorems. -/

/-- C4: for every claim whose Registered condition is present and True,
Reconcile returns done (no requeue) with no error, performs no delete
and no pool mutation, regardless of the value or presence of the
Launched condition. -/
theorem C4_registered_true_is_terminal (env : Env) (now : Int) (nc : NodeClaim)
    (h : condIsTrue nc.registered = true) :
    Reconcile env now nc = ⟨⟨false, 0⟩, none, []⟩ := by
  unfold Reconcile
  simp [h]

/-- Witness for C4 at a concrete claim with Registered True and
Launched False. -/
theorem C4_registered_true_is_terminal_witness :
    condIsTrue (some registeredTrue) = true ∧
    Reconcile envAllOk registrationTimeout
        ⟨some launchedFalse, some registeredTrue, "pool-a", "on-demand"⟩
      = ⟨⟨false, 0⟩, none, []⟩ :=
  ⟨by decide,
   C4_registered_true_is_terminal envAllOk registrationTimeout
     ⟨some launchedFalse, some registeredTrue, "pool-a", "on-demand"⟩ (by decide)⟩

/-- C5 as stated is false: with Launched absent but Registered True,
Reconcile returns done (terminal success), not requeue-immediately.
The first branch of the claim reads "Launched absent (regardless of
Registered)", but the Registered=True check fires first. -/
theorem C5_counterexample :
    (⟨none, some registeredTrue, "pool-a", "on-demand"⟩ : NodeClaim).launched = none ∧
    Reconcile envAllOk 0 ⟨none, some registeredTrue, "pool-a", "on-demand"⟩
      = ⟨⟨false, 0⟩, none, []⟩ := by
  constructor
  · rfl
  · decide

/-- C5 amended: for every claim with Registered not True whose
next-expected condition is absent — Launched absent, or Launched=True
with Registered absent — Reconcile returns requeue-immediately with no
error, no delete, and no pool mutation, no matter the clock value. -/
theorem C5_absent_condition_requeues_immediately (env : Env) (now : Int) (nc : NodeClaim)
    (h : (nc.launched = none ∧ condIsTrue nc.registered = false) ∨
         (condIsTrue nc.launched = true ∧ nc.registered = none)) :
    Reconcile env now nc = ⟨⟨true, 0⟩, none, []⟩ := by
  rcases h with ⟨hl, hr⟩ | ⟨hl, hr⟩
  · unfold Reconcile
    simp [hl, hr]
  · cases hlc : nc.launched with
    | none => rw [hlc] at hl; simp [condIsTrue] at hl
    | some l =>
      rw [hlc] at hl
      have hls : l.status = CondStatus.cTrue := by
        simpa [condIsTrue] using hl
      unfold Reconcile registrationStage
      simp [hr, hlc, hls, condIsTrue]

/-- Witness for C5 amended, both branches: Launched absent with
Registered Unknown, and Launched True with Registered absent. -/
theorem C5_absent_condition_requeues_immediately_witness :
    ((⟨none, some registeredUnknown, "pool-a", "on-demand"⟩ : NodeClaim).launched = none ∧
       condIsTrue (some registeredUnknown) = false) ∧
    Reconcile envAllOk registrationTimeout
        ⟨none, some registeredUnknown, "pool-a", "on-demand"⟩
      = ⟨⟨true, 0⟩, none, []⟩ ∧
    Reconcile envAllOk registrationTimeout
        ⟨some launchedTrue, none, "pool-a", "on-demand"⟩
      = ⟨⟨true, 0⟩, none, []⟩ :=
  ⟨⟨rfl, by decide⟩,
   C5_absent_condition_requeues_immediately envAllOk registrationTimeout
     ⟨none, some registeredUnknown, "pool-a", "on-demand"⟩ (Or.inl ⟨rfl, by decide⟩),
   C5_absent_condition_requeues_immediately envAllOk registrationTimeout
     ⟨some launchedTrue, none, "pool-a", "on-demand"⟩ (Or.inr ⟨by decide, rfl⟩)⟩

/-- C6 as stated is false: a claim with Launched present, not True, and
inside the launch window, but whose Registered condition is True,
returns done (terminal success), not requeue-after a positive duration.
The Registered=True check fires before the launch-window check. -/
theorem C6_counterexample :
    ((⟨some launchedFalse, some registeredTrue, "pool-a", "on-demand"⟩ : NodeClaim).launched
        = some launchedFalse ∧
      condIsTrue (some launchedFalse) = false ∧
      (0 : Int) - launchedFalse.lastTransitionTime < launchTimeout) ∧
    Reconcile envAllOk 0 ⟨some launchedFalse, some registeredTrue, "pool-a", "on-demand"⟩
      = ⟨⟨false, 0⟩, none, []⟩ := by
  constructor
  · exact ⟨rfl, by decide, by decide⟩
  · decide

/-- C6 amended: for every claim with Registered not True that is still
inside the relevant timeout window — Launched present and not True with
elapsed < launchTimeout, or Launched=True with Registered present, not
True, and elapsed < registrationTimeout — Reconcile returns
requeue-after a strictly positive duration equal to the stage's timeout
minus the elapsed time since that condition's lastTransitionTime, with
no delete and no pool mutation; each check binds one clock reading and
compares the very difference it returns. -/
theorem C6_in_window_requeues_after (env : Env) (now : Int) (nc : NodeClaim) :
    (∀ l, condIsTrue nc.registered = false → nc.launched = some l →
      l.status ≠ CondStatus.cTrue →
      now - l.lastTransitionTime < launchTimeout →
      Reconcile env now nc
          = ⟨⟨false, launchTimeout - (now - l.lastTransitionTime)⟩, none, []⟩ ∧
        0 < launchTimeout - (now - l.lastTransitionTime)) ∧
    (∀ l r, nc.launched = some l → l.status = CondStatus.cTrue →
      nc.registered = some r → r.status ≠ CondStatus.cTrue →
      now - r.lastTransitionTime < registrationTimeout →
      Reconcile env now nc
          = ⟨⟨false, registrationTimeout - (now - r.lastTransitionTime)⟩, none, []⟩ ∧
        0 < registrationTimeout - (now - r.lastTransitionTime)) := by
  constructor
  · intro l hreg hl hls hwin
    have hpos : 0 < launchTimeout - (now - l.lastTransitionTime) := by omega
    refine ⟨?_, hpos⟩
    unfold Reconcile
    simp [hreg, hl, hls, hpos]
  · intro l r hl hls hr hrs hwin
    have hpos : 0 < registrationTimeout - (now - r.lastTransitionTime) := by omega
    have hreg : condIsTrue nc.registered = false := by
      rw [hr]; simp [condIsTrue, hrs]
    refine ⟨?_, hpos⟩
    unfold Reconcile registrationStage
    simp [hreg, hl, hls, hr, hpos, condIsTrue, hrs]

/-- Witness for C6 amended, both stages, one minute into each window. -/
theorem C6_in_window_requeues_after_witness :
    Reconcile envAllOk timeMinute
        ⟨some launchedFalse, some registeredUnknown, "pool-a", "on-demand"⟩
      = ⟨⟨false, launchTimeout - timeMinute⟩, none, []⟩ ∧
    Reconcile envAllOk timeMinute
        ⟨some launchedTrue, some registeredUnknown, "pool-a", "on-demand"⟩
      = ⟨⟨false, registrationTimeout - timeMinute⟩, none, []⟩ := by
  constructor
  · have h := (C6_in_window_requeues_after envAllOk timeMinute
      ⟨some launchedFalse, some registeredUnknown, "pool-a", "on-demand"⟩).1
      launchedFalse (by decide) rfl (by decide) (by decide)
    simpa using h.1
  · have h := (C6_in_window_requeues_after envAllOk timeMinute
      ⟨some launchedTrue, some registeredUnknown, "pool-a", "on-demand"⟩).2
      launchedTrue registeredUnknown rfl (by decide) rfl (by decide) (by decide)
    simpa using h.1

/-- C1 as stated is false: after a SUCCESSFUL launch-timeout delete the
code does not stop — it falls through to the registration stage. On a
claim whose launch and registration timers have both expired, one
invocation issues two deletes (launch_timeout then registration_timeout)
and one pool patch. -/
theorem C1_counterexample :
    (condIsTrue (some launchedFalse) = false ∧
      launchTimeout ≤ registrationTimeout - launchedFalse.lastTransitionTime) ∧
    deleteCount (Reconcile envAllOk registrationTimeout
        ⟨some launchedFalse, some registeredUnknown, "pool-a", "on-demand"⟩).effects = 2 ∧
    patchCount (Reconcile envAllOk registrationTimeout
        ⟨some launchedFalse, some registeredUnknown, "pool-a", "on-demand"⟩).effects = 1 := by
  refine ⟨⟨by decide, by decide⟩, ?_, ?_⟩ <;> decide

/-- C1 amended: for every claim with Registered not True, Launched
present and not True, and elapsed ≥ launchTimeout, Reconcile deletes the
claim tagged launch_timeout (incrementing the disruption counter), and
on a successful delete the invocation does NOT stop: it proceeds to
registration-stage processing of the same claim (requeue-immediately if
Registered is absent, requeue-after if its window is open, pool
propagation plus a second registration_timeout delete if it has also
timed out). Only the delete-error cases end the invocation at the
launch stage. -/
theorem C1_launch_timeout_delete_falls_through (env : Env) (now : Int) (nc : NodeClaim)
    (l : Condition)
    (hreg : condIsTrue nc.registered = false)
    (hl : nc.launched = some l)
    (hls : l.status ≠ CondStatus.cTrue)
    (ht : launchTimeout ≤ now - l.lastTransitionTime)
    (hd : env.deleteResp 0 = none) :
    Reconcile env now nc =
      registrationStage env now nc 1
        [Effect.deleteClaim launchTimeoutReason,
         Effect.incCounter launchTimeoutReason nc.nodePoolLabel nc.capacityTypeLabel] := by
  have hnpos : ¬ 0 < launchTimeout - (now - l.lastTransitionTime) := by omega
  unfold Reconcile
  simp [hreg, hl, hls, hnpos, deleteNodeClaimForTimeout, hd, LaunchTimeout]

/-- Witness for C1 amended: Launched False and timed out, Registered
absent; the delete succeeds and the invocation continues into the
registration stage (which requeues immediately). -/
theorem C1_launch_timeout_delete_falls_through_witness :
    (condIsTrue (none : Option Condition) = false ∧
      launchTimeout ≤ launchTimeout - launchedFalse.lastTransitionTime ∧
      envAllOk.deleteResp 0 = none) ∧
    Reconcile envAllOk launchTimeout
        ⟨some launchedFalse, none, "pool-a", "on-demand"⟩
      = registrationStage envAllOk launchTimeout
          ⟨some launchedFalse, none, "pool-a", "on-demand"⟩ 1
          [Effect.deleteClaim launchTimeoutReason,
           Effect.incCounter launchTimeoutReason "pool-a" "on-demand"] :=
  ⟨⟨by decide, by decide, rfl⟩,
   C1_launch_timeout_delete_falls_through envAllOk launchTimeout
     ⟨some launchedFalse, none, "pool-a", "on-demand"⟩ launchedFalse
     (by decide) rfl (by decide) (by decide) rfl⟩

/-- C2: on the registration-timeout path (Launched=True, Registered
present and not True, elapsed ≥ registrationTimeout) with an owning
pool whose registration-health condition is Unknown and a store that
accepts the patch and the delete, Reconcile issues exactly one
conditional pool-status write — SetFalse with reason
"RegistrationFailed" and message "Failed to register node" since
Launched is True — then deletes the claim tagged registration_timeout,
returning done with no error. Second conjunct: in the defensive branch
where Launched is not True, the single write instead carries the
Launched condition's own reason and message verbatim. -/
theorem C2_registration_timeout_propagates_then_deletes :
    (∀ (env : Env) (now : Int) (nc : NodeClaim) (l r : Condition) (pool : NodePool),
      nc.launched = some l → l.status = CondStatus.cTrue →
      nc.registered = some r → r.status ≠ CondStatus.cTrue →
      registrationTimeout ≤ now - r.lastTransitionTime →
      nc.nodePoolLabel ≠ "" →
      env.getPoolResp = Except.ok pool →
      condIsUnknown pool.nodeRegistrationHealthy = true →
      env.patchResp = none →
      env.deleteResp 0 = none →
      Reconcile env now nc =
        ⟨⟨false, 0⟩, none,
         [Effect.getNodePool nc.nodePoolLabel,
          Effect.patchNodePoolStatus
            ⟨CondStatus.cFalse, "RegistrationFailed", "Failed to register node"⟩,
          Effect.deleteClaim registrationTimeoutReason,
          Effect.incCounter registrationTimeoutReason nc.nodePoolLabel nc.capacityTypeLabel]⟩) ∧
    (∀ (env : Env) (nc : NodeClaim) (pool : NodePool),
      condIsTrue nc.launched = false →
      nc.nodePoolLabel ≠ "" →
      env.getPoolResp = Except.ok pool →
      condIsUnknown pool.nodeRegistrationHealthy = true →
      (updateNodePoolRegistrationHealth env nc).2 =
        [Effect.getNodePool nc.nodePoolLabel,
         Effect.patchNodePoolStatus
           ⟨CondStatus.cFalse, condReason nc.launched, condMessage nc.launched⟩]) := by
  constructor
  · intro env now nc l r pool hl hls hr hrs ht hlabel hget hunk hpatch hd
    have hreg : condIsTrue nc.registered = false := by
      rw [hr]; simp [condIsTrue, hrs]
    have hnpos : ¬ 0 < registrationTimeout - (now - r.lastTransitionTime) := by omega
    unfold Reconcile registrationStage updateNodePoolRegistrationHealth
    simp [hreg, hl, hls, hr, hrs, hnpos, hlabel, hget, hunk, hpatch, hd,
          condIsTrue, ignoreNotFound, deleteNodeClaimForTimeout, RegistrationTimeout]
  · intro env nc pool hlf hlabel hget hunk
    unfold updateNodePoolRegistrationHealth
    cases hp : env.patchResp with
    | none => simp [hlabel, hget, hunk, hlf, hp]
    | some e => cases e <;> simp [hlabel, hget, hunk, hlf, hp]

/-- Witness for C2: both conjuncts at concrete inputs — the main path
with Launched True, and the defensive write content with Launched
False. -/
theorem C2_registration_timeout_propagates_then_deletes_witness :
    Reconcile envAllOk registrationTimeout
        ⟨some launchedTrue, some registeredUnknown, "pool-a", "on-demand"⟩
      = ⟨⟨false, 0⟩, none,
         [Effect.getNodePool "pool-a",
          Effect.patchNodePoolStatus
            ⟨CondStatus.cFalse, "RegistrationFailed", "Failed to register node"⟩,
          Effect.deleteClaim registrationTimeoutReason,
          Effect.incCounter registrationTimeoutReason "pool-a" "on-demand"]⟩ ∧
    (updateNodePoolRegistrationHealth envAllOk
        ⟨some launchedFalse, some registeredUnknown, "pool-a", "on-demand"⟩).2 =
      [Effect.getNodePool "pool-a",
       Effect.patchNodePoolStatus
         ⟨CondStatus.cFalse, condReason (some launchedFalse), condMessage (some launchedFalse)⟩] :=
  ⟨C2_registration_timeout_propagates_then_deletes.1 envAllOk registrationTimeout
     ⟨some launchedTrue, some registeredUnknown, "pool-a", "on-demand"⟩
     launchedTrue registeredUnknown ⟨some ⟨CondStatus.cUnknown, "", "", 0⟩⟩
     rfl (by decide) rfl (by decide) (by decide) (by decide) rfl (by decide) rfl rfl,
   C2_registration_timeout_propagates_then_deletes.2 envAllOk
     ⟨some launchedFalse, some registeredUnknown, "pool-a", "on-demand"⟩
     ⟨some ⟨CondStatus.cUnknown, "", "", 0⟩⟩
     (by decide) (by decide) rfl (by decide)⟩

/-- C3 as stated is false: when the launch-timeout branch has already
deleted the claim and fallen through, a Conflict on the pool patch still
yields requeue-immediately with no error, but the claim WAS deleted
earlier in that same invocation. -/
theorem C3_counterexample :
    (envConflict.patchResp = some KErr.conflict ∧
      patchCount (Reconcile envConflict registrationTimeout
          ⟨some launchedFalse, some registeredUnknown, "pool-b", "spot"⟩).effects = 1) ∧
    (Reconcile envConflict registrationTimeout
        ⟨some launchedFalse, some registeredUnknown, "pool-b", "spot"⟩).result = ⟨true, 0⟩ ∧
    (Reconcile envConflict registrationTimeout
        ⟨some launchedFalse, some registeredUnknown, "pool-b", "spot"⟩).err = none ∧
    deleteCount (Reconcile envConflict registrationTimeout
        ⟨some launchedFalse, some registeredUnknown, "pool-b", "spot"⟩).effects = 1 := by
  refine ⟨⟨rfl, ?_⟩, ?_, ?_, ?_⟩ <;> decide

/-- C3 amended: a Conflict on the conditional pool-status write makes
Reconcile return requeue-immediately with no error, and no
registration-stage deletion follows the conflict; in particular when
Launched is True (so no launch-stage delete can have happened) the
claim is not deleted at all in that invocation. A launch-timeout
deletion that already occurred earlier in the same invocation (the
fall-through) is not undone by the conflict. -/
theorem C3_conflict_requeues_immediately (env : Env) (now : Int) (nc : NodeClaim)
    (l r : Condition) (pool : NodePool)
    (hl : nc.launched = some l) (hls : l.status = CondStatus.cTrue)
    (hr : nc.registered = some r) (hrs : r.status ≠ CondStatus.cTrue)
    (ht : registrationTimeout ≤ now - r.lastTransitionTime)
    (hlabel : nc.nodePoolLabel ≠ "")
    (hget : env.getPoolResp = Except.ok pool)
    (hunk : condIsUnknown pool.nodeRegistrationHealthy = true)
    (hpatch : env.patchResp = some KErr.conflict) :
    Reconcile env now nc =
      ⟨⟨true, 0⟩, none,
       [Effect.getNodePool nc.nodePoolLabel,
        Effect.patchNodePoolStatus
          ⟨CondStatus.cFalse, "RegistrationFailed", "Failed to register node"⟩]⟩ := by
  have hreg : condIsTrue nc.registered = false := by
    rw [hr]; simp [condIsTrue, hrs]
  have hnpos : ¬ 0 < registrationTimeout - (now - r.lastTransitionTime) := by omega
  unfold Reconcile registrationStage updateNodePoolRegistrationHealth
  simp [hreg, hl, hls, hr, hrs, hnpos, hlabel, hget, hunk, hpatch,
        condIsTrue, ignoreNotFound]

/-- Witness for C3 amended: Launched True, registration timed out, pool
Unknown, patch conflicts — requeue-immediately, no error, no delete. -/
theorem C3_conflict_requeues_immediately_witness :
    (envConflict.patchResp = some KErr.conflict ∧
      condIsUnknown (some registeredUnknown) = true) ∧
    Reconcile envConflict registrationTimeout
        ⟨some launchedTrue, some registeredUnknown, "pool-a", "on-demand"⟩
      = ⟨⟨true, 0⟩, none,
         [Effect.getNodePool "pool-a",
          Effect.patchNodePoolStatus
            ⟨CondStatus.cFalse, "RegistrationFailed", "Failed to register node"⟩]⟩ :=
  ⟨⟨rfl, by decide⟩,
   C3_conflict_requeues_immediately envConflict registrationTimeout
     ⟨some launchedTrue, some registeredUnknown, "pool-a", "on-demand"⟩
     launchedTrue registeredUnknown ⟨some ⟨CondStatus.cUnknown, "", "", 0⟩⟩
     rfl (by decide) rfl (by decide) (by decide) (by decide) rfl (by decide) rfl⟩

/-- The effect trace of `deleteNodeClaimForTimeout` is one Delete, plus
the counter increment exactly when the Delete succeeded. -/
theorem deleteForTimeout_effects_cases (env : Env) (i : Nat) (t : NodeClaimTimeout)
    (nc : NodeClaim) :
    (deleteNodeClaimForTimeout env i t nc).2 = [Effect.deleteClaim t.reason] ∨
    (deleteNodeClaimForTimeout env i t nc).2 =
      [Effect.deleteClaim t.reason,
       Effect.incCounter t.reason nc.nodePoolLabel nc.capacityTypeLabel] := by
  unfold deleteNodeClaimForTimeout
  cases env.deleteResp i <;> simp

/-- The effect trace of `updateNodePoolRegistrationHealth` is empty (no
pool label), a lone Get (Get failed or the pool condition is not
Unknown), or a Get followed by exactly one SetFalse patch — the latter
only when the Get returned a pool whose registration-health condition
is Unknown. -/
theorem update_effects_cases (env : Env) (nc : NodeClaim) :
    (updateNodePoolRegistrationHealth env nc).2 = [] ∨
    (updateNodePoolRegistrationHealth env nc).2 = [Effect.getNodePool nc.nodePoolLabel] ∨
    (∃ pool, env.getPoolResp = Except.ok pool ∧
      condIsUnknown pool.nodeRegistrationHealthy = true ∧
      ∃ rsn msg,
        (updateNodePoolRegistrationHealth env nc).2 =
          [Effect.getNodePool nc.nodePoolLabel,
           Effect.patchNodePoolStatus ⟨CondStatus.cFalse, rsn, msg⟩]) := by
  unfold updateNodePoolRegistrationHealth
  by_cases hlabel : nc.nodePoolLabel = ""
  · simp [hlabel]
  · cases hg : env.getPoolResp with
    | error e => simp [hlabel, hg]
    | ok pool =>
      cases hunk : condIsUnknown pool.nodeRegistrationHealthy with
      | false => simp [hlabel, hg, hunk]
      | true =>
        right; right
        refine ⟨pool, rfl, hunk, ?_⟩
        cases hlt : condIsTrue nc.launched with
        | true =>
          refine ⟨"RegistrationFailed", "Failed to register node", ?_⟩
          cases hp : env.patchResp with
          | none => simp [hlabel, hg, hunk, hlt, hp]
          | some e => cases e <;> simp [hlabel, hg, hunk, hlt, hp]
        | false =>
          refine ⟨condReason nc.launched, condMessage nc.launched, ?_⟩
          cases hp : env.patchResp with
          | none => simp [hlabel, hg, hunk, hlt, hp]
          | some e => cases e <;> simp [hlabel, hg, hunk, hlt, hp]

/-- The effect trace of `registrationStage` extends the accumulated
trace with at most the propagation effects and at most one
registration-timeout delete. -/
theorem regStage_effects_decomp (env : Env) (now : Int) (nc : NodeClaim) (i : Nat)
    (acc : List Effect) :
    (registrationStage env now nc i acc).effects = acc ∨
    (registrationStage env now nc i acc).effects =
      acc ++ (updateNodePoolRegistrationHealth env nc).2 ∨
    (registrationStage env now nc i acc).effects =
      acc ++ (updateNodePoolRegistrationHealth env nc).2
          ++ (deleteNodeClaimForTimeout env i RegistrationTimeout nc).2 := by
  unfold registrationStage
  cases hr : nc.registered with
  | none => simp
  | some r =>
    dsimp only
    by_cases hwin : 0 < registrationTimeout - (now - r.lastTransitionTime)
    · rw [if_pos hwin]; simp
    · rw [if_neg hwin]
      by_cases hu : ignoreNotFound (updateNodePoolRegistrationHealth env nc).1 ≠ none
      · rw [if_pos hu]
        split <;> simp
      · rw [if_neg hu]
        cases hd : (deleteNodeClaimForTimeout env i RegistrationTimeout nc).1 with
        | none => simp [hd, List.append_assoc]
        | some e => cases e <;> simp [hd, List.append_assoc]

/-- The effect trace of a full `Reconcile` invocation is empty, a lone
launch-timeout delete trace, or a launch-stage prefix (empty or a
successful launch-timeout delete trace) continued by the registration
stage. -/
theorem reconcile_effects_decomp (env : Env) (now : Int) (nc : NodeClaim) :
    (Reconcile env now nc).effects = [] ∨
    (Reconcile env now nc).effects = (deleteNodeClaimForTimeout env 0 LaunchTimeout nc).2 ∨
    (Reconcile env now nc).effects = (registrationStage env now nc 0 []).effects ∨
    ((Reconcile env now nc).effects =
        (registrationStage env now nc 1
          (deleteNodeClaimForTimeout env 0 LaunchTimeout nc).2).effects ∧
      (deleteNodeClaimForTimeout env 0 LaunchTimeout nc).1 = none) := by
  unfold Reconcile
  by_cases hreg : condIsTrue nc.registered
  · simp [hreg]
  · cases hl : nc.launched with
    | none => simp [hreg, hl]
    | some l =>
      by_cases hls : l.status = CondStatus.cTrue
      · simp [hreg, hl, hls]
      · by_cases hwin : 0 < launchTimeout - (now - l.lastTransitionTime)
        · simp [hreg, hl, hls, hwin]
        · simp only [hreg, hl, hls, hwin, if_false, Bool.false_eq_true]
          cases hd : (deleteNodeClaimForTimeout env 0 LaunchTimeout nc).1 with
          | none => simp [hreg, hls, hd]
          | some e => cases e <;> simp [hreg, hls, hd]

/-- `deleteNodeClaimForTimeout` never issues a pool patch. -/
theorem patch_not_in_deleteForTimeout (env : Env) (i : Nat) (t : NodeClaimTimeout)
    (nc : NodeClaim) (c : PatchCond) :
    Effect.patchNodePoolStatus c ∉ (deleteNodeClaimForTimeout env i t nc).2 := by
  rcases deleteForTimeout_effects_cases env i t nc with h | h <;> simp [h]

/-- Every patch issued by `updateNodePoolRegistrationHealth` sets the
condition to False, and only after reading a pool whose
registration-health condition was Unknown. -/
theorem update_patch_mem (env : Env) (nc : NodeClaim) (c : PatchCond)
    (h : Effect.patchNodePoolStatus c ∈ (updateNodePoolRegistrationHealth env nc).2) :
    c.status = CondStatus.cFalse ∧
    ∃ pool, env.getPoolResp = Except.ok pool ∧
      condIsUnknown pool.nodeRegistrationHealthy = true := by
  rcases update_effects_cases env nc with he | he | ⟨pool, hg, hunk, rsn, msg, he⟩ <;>
    rw [he] at h
  · simp at h
  · simp at h
  · simp at h
    refine ⟨?_, pool, hg, hunk⟩
    rw [h]

/-- Concatenation splits the Delete count. -/
theorem deleteCount_append (a b : List Effect) :
    deleteCount (a ++ b) = deleteCount a + deleteCount b := by
  simp [deleteCount, List.countP_append]

/-- Concatenation splits the patch count. -/
theorem patchCount_append (a b : List Effect) :
    patchCount (a ++ b) = patchCount a + patchCount b := by
  simp [patchCount, List.countP_append]

/-- `deleteNodeClaimForTimeout` issues exactly one Delete and no patch. -/
theorem deleteForTimeout_counts (env : Env) (i : Nat) (t : NodeClaimTimeout)
    (nc : NodeClaim) :
    deleteCount (deleteNodeClaimForTimeout env i t nc).2 = 1 ∧
    patchCount (deleteNodeClaimForTimeout env i t nc).2 = 0 := by
  rcases deleteForTimeout_effects_cases env i t nc with h | h <;>
    simp [h, deleteCount, patchCount, List.countP_cons]

/-- `updateNodePoolRegistrationHealth` issues no Delete and at most one
patch. -/
theorem update_counts (env : Env) (nc : NodeClaim) :
    deleteCount (updateNodePoolRegistrationHealth env nc).2 = 0 ∧
    patchCount (updateNodePoolRegistrationHealth env nc).2 ≤ 1 := by
  rcases update_effects_cases env nc with h | h | ⟨pool, hg, hunk, rsn, msg, h⟩ <;>
    simp [h, deleteCount, patchCount, List.countP_cons]

/-- The registration stage adds at most one Delete and at most one patch
to the accumulated trace. -/
theorem regStage_counts (env : Env) (now : Int) (nc : NodeClaim) (i : Nat)
    (acc : List Effect) :
    deleteCount (registrationStage env now nc i acc).effects ≤ deleteCount acc + 1 ∧
    patchCount (registrationStage env now nc i acc).effects ≤ patchCount acc + 1 := by
  obtain ⟨hu1, hu2⟩ := update_counts env nc
  obtain ⟨hd1, hd2⟩ := deleteForTimeout_counts env i RegistrationTimeout nc
  rcases regStage_effects_decomp env now nc i acc with h | h | h <;> rw [h]
  · omega
  · rw [deleteCount_append, patchCount_append]; omega
  · rw [deleteCount_append, deleteCount_append, patchCount_append, patchCount_append]
    omega

/-- C7: (skip) on the registration-timeout path, when propagation is
skipped — the claim carries no owning-pool label, or the pool read
returned a condition already True or already False (i.e. not Unknown) —
no pool write occurs, yet the claim is still deleted tagged
registration_timeout and the invocation ends done with no error;
(invariant) every pool patch this core ever issues, on any input, sets
the condition to False and only after reading a pool whose condition
was Unknown — it never writes the condition back toward Unknown or
True. -/
theorem C7_skip_still_deletes_and_only_unknown_to_false :
    (∀ (env : Env) (now : Int) (nc : NodeClaim) (l r : Condition),
      nc.launched = some l → l.status = CondStatus.cTrue →
      nc.registered = some r → r.status ≠ CondStatus.cTrue →
      registrationTimeout ≤ now - r.lastTransitionTime →
      env.deleteResp 0 = none →
      (nc.nodePoolLabel = "" ∨
        ∃ pool, env.getPoolResp = Except.ok pool ∧
          condIsUnknown pool.nodeRegistrationHealthy = false) →
      (Reconcile env now nc).result = ⟨false, 0⟩ ∧
      (Reconcile env now nc).err = none ∧
      patchCount (Reconcile env now nc).effects = 0 ∧
      Effect.deleteClaim registrationTimeoutReason ∈ (Reconcile env now nc).effects) ∧
    (∀ (env : Env) (now : Int) (nc : NodeClaim) (c : PatchCond),
      Effect.patchNodePoolStatus c ∈ (Reconcile env now nc).effects →
      c.status = CondStatus.cFalse ∧
      ∃ pool, env.getPoolResp = Except.ok pool ∧
        condIsUnknown pool.nodeRegistrationHealthy = true) := by
  constructor
  · intro env now nc l r hl hls hr hrs ht hd hskip
    have hreg : condIsTrue nc.registered = false := by
      rw [hr]; simp [condIsTrue, hrs]
    have hnpos : ¬ 0 < registrationTimeout - (now - r.lastTransitionTime) := by omega
    have hupd : updateNodePoolRegistrationHealth env nc =
        (none, if nc.nodePoolLabel = "" then []
               else [Effect.getNodePool nc.nodePoolLabel]) := by
      rcases hskip with hlabel | ⟨pool, hg, hunk⟩
      · unfold updateNodePoolRegistrationHealth
        simp [hlabel]
      · unfold updateNodePoolRegistrationHealth
        by_cases hlabel : nc.nodePoolLabel = ""
        · simp [hlabel]
        · simp [hlabel, hg, hunk]
    unfold Reconcile registrationStage
    simp only [hreg, hl, hls, hr, hnpos, hupd, if_true, if_false]
    by_cases hlabel : nc.nodePoolLabel = "" <;>
      simp [hlabel, ignoreNotFound, deleteNodeClaimForTimeout, hd, RegistrationTimeout,
            patchCount, List.countP_cons, condIsTrue, hrs]
  · intro env now nc c hmem
    rcases reconcile_effects_decomp env now nc with he | he | he | ⟨he, _⟩ <;>
      rw [he] at hmem
    · simp at hmem
    · exact absurd hmem (patch_not_in_deleteForTimeout env 0 LaunchTimeout nc c)
    · rcases regStage_effects_decomp env now nc 0 [] with h2 | h2 | h2 <;> rw [h2] at hmem
      · simp at hmem
      · simp only [List.nil_append] at hmem
        exact update_patch_mem env nc c hmem
      · simp only [List.nil_append, List.mem_append] at hmem
        rcases hmem with hmem | hmem
        · exact update_patch_mem env nc c hmem
        · exact absurd hmem (patch_not_in_deleteForTimeout env 0 RegistrationTimeout nc c)
    · rcases regStage_effects_decomp env now nc 1
          (deleteNodeClaimForTimeout env 0 LaunchTimeout nc).2 with h2 | h2 | h2 <;>
        rw [h2] at hmem
      · exact absurd hmem (patch_not_in_deleteForTimeout env 0 LaunchTimeout nc c)
      · rw [List.mem_append] at hmem
        rcases hmem with hmem | hmem
        · exact absurd hmem (patch_not_in_deleteForTimeout env 0 LaunchTimeout nc c)
        · exact update_patch_mem env nc c hmem
      · rw [List.mem_append, List.mem_append] at hmem
        rcases hmem with (hmem | hmem) | hmem
        · exact absurd hmem (patch_not_in_deleteForTimeout env 0 LaunchTimeout nc c)
        · exact update_patch_mem env nc c hmem
        · exact absurd hmem (patch_not_in_deleteForTimeout env 1 RegistrationTimeout nc c)

/-- Witness for C7: skip-path at a pool whose condition is already
False (no patch, claim still deleted), and the invariant applied to a
patch actually issued in a run against an Unknown pool. -/
theorem C7_skip_still_deletes_and_only_unknown_to_false_witness :
    (patchCount (Reconcile envPoolFalse registrationTimeout
        ⟨some launchedTrue, some registeredUnknown, "pool-a", "on-demand"⟩).effects = 0 ∧
      Effect.deleteClaim registrationTimeoutReason ∈
        (Reconcile envPoolFalse registrationTimeout
          ⟨some launchedTrue, some registeredUnknown, "pool-a", "on-demand"⟩).effects) ∧
    ((⟨CondStatus.cFalse, "RegistrationFailed", "Failed to register node"⟩ : PatchCond).status
        = CondStatus.cFalse ∧
      ∃ pool, envAllOk.getPoolResp = Except.ok pool ∧
        condIsUnknown pool.nodeRegistrationHealthy = true) :=
  ⟨⟨(C7_skip_still_deletes_and_only_unknown_to_false.1 envPoolFalse registrationTimeout
      ⟨some launchedTrue, some registeredUnknown, "pool-a", "on-demand"⟩
      launchedTrue registeredUnknown rfl (by decide) rfl (by decide) (by decide) rfl
      (Or.inr ⟨⟨some ⟨CondStatus.cFalse, "RegistrationFailed", "old", 0⟩⟩, rfl, by decide⟩)).2.2.1,
    (C7_skip_still_deletes_and_only_unknown_to_false.1 envPoolFalse registrationTimeout
      ⟨some launchedTrue, some registeredUnknown, "pool-a", "on-demand"⟩
      launchedTrue registeredUnknown rfl (by decide) rfl (by decide) (by decide) rfl
      (Or.inr ⟨⟨some ⟨CondStatus.cFalse, "RegistrationFailed", "old", 0⟩⟩, rfl, by decide⟩)).2.2.2⟩,
   C7_skip_still_deletes_and_only_unknown_to_false.2 envAllOk registrationTimeout
     ⟨some launchedTrue, some registeredUnknown, "pool-a", "on-demand"⟩
     ⟨CondStatus.cFalse, "RegistrationFailed", "Failed to register node"⟩ (by decide)⟩

/-- C10 as stated is false: one invocation can issue two claim Deletes.
With both the launch and registration timers expired, the successful
launch-timeout delete falls through into a registration-timeout
delete. -/
theorem C10_counterexample :
    deleteCount (Reconcile envAllOk (registrationTimeout + timeMinute)
        ⟨some launchedFalse, some registeredUnknown, "pool-c", "spot"⟩).effects = 2 := by
  decide

/-- C10 amended: Reconcile never mutates the claim object or its status
conditions — its store interactions are only pool Gets, at most one
conditional pool-status patch, claim Deletes and counter increments —
and it issues at most one Delete per stage: at most two Deletes overall
(two only in the launch-timeout fall-through), and at most one when the
Launched condition is True. -/
theorem C10_mutation_bounds (env : Env) (now : Int) (nc : NodeClaim) :
    deleteCount (Reconcile env now nc).effects ≤ 2 ∧
    patchCount (Reconcile env now nc).effects ≤ 1 ∧
    (condIsTrue nc.launched = true → deleteCount (Reconcile env now nc).effects ≤ 1) := by
  obtain ⟨hd1, hd2⟩ := deleteForTimeout_counts env 0 LaunchTimeout nc
  refine ⟨?_, ?_, ?_⟩
  · rcases reconcile_effects_decomp env now nc with he | he | he | ⟨he, _⟩ <;> rw [he]
    · simp [deleteCount]
    · omega
    · have := (regStage_counts env now nc 0 []).1
      have h0 : deleteCount ([] : List Effect) = 0 := by simp [deleteCount]
      omega
    · have := (regStage_counts env now nc 1
        (deleteNodeClaimForTimeout env 0 LaunchTimeout nc).2).1
      omega
  · rcases reconcile_effects_decomp env now nc with he | he | he | ⟨he, _⟩ <;> rw [he]
    · simp [patchCount]
    · omega
    · have := (regStage_counts env now nc 0 []).2
      have h0 : patchCount ([] : List Effect) = 0 := by simp [patchCount]
      omega
    · have := (regStage_counts env now nc 1
        (deleteNodeClaimForTimeout env 0 LaunchTimeout nc).2).2
      omega
  · intro hlt
    unfold Reconcile
    by_cases hreg : condIsTrue nc.registered
    · simp [hreg, deleteCount]
    · cases hl : nc.launched with
      | none => rw [hl] at hlt; simp [condIsTrue] at hlt
      | some l =>
        have hls : l.status = CondStatus.cTrue := by
          rw [hl] at hlt; simpa [condIsTrue] using hlt
        simp only [hreg, hl, hls, if_false, if_true, Bool.false_eq_true]
        have := (regStage_counts env now nc 0 []).1
        simp only [deleteCount, List.countP_nil] at this ⊢
        simpa using this

/-- Witness for C10 amended: bounds evaluated on the fall-through run
(two deletes, one patch) and the Launched=True bound on the
registration-timeout run. -/
theorem C10_mutation_bounds_witness :
    deleteCount (Reconcile envAllOk (registrationTimeout + timeMinute)
        ⟨some launchedFalse, some registeredUnknown, "pool-d", "spot"⟩).effects ≤ 2 ∧
    patchCount (Reconcile envAllOk (registrationTimeout + timeMinute)
        ⟨some launchedFalse, some registeredUnknown, "pool-d", "spot"⟩).effects ≤ 1 ∧
    deleteCount (Reconcile envAllOk registrationTimeout
        ⟨some launchedTrue, some registeredUnknown, "pool-d", "spot"⟩).effects ≤ 1 :=
  ⟨(C10_mutation_bounds envAllOk (registrationTimeout + timeMinute)
      ⟨some launchedFalse, some registeredUnknown, "pool-d", "spot"⟩).1,
   (C10_mutation_bounds envAllOk (registrationTimeout + timeMinute)
      ⟨some launchedFalse, some registeredUnknown, "pool-d", "spot"⟩).2.1,
   (C10_mutation_bounds envAllOk registrationTimeout
      ⟨some launchedTrue, some registeredUnknown, "pool-d", "spot"⟩).2.2 (by decide)⟩

/-- C8: a NotFound answer to a timeout-triggered Delete is swallowed and
the invocation returns done with no error, at both stages — so a second
invocation on a claim whose first invocation already deleted it (the
store now answering NotFound) ends done with no error. First conjunct:
launch-stage delete answered NotFound. Second conjunct:
registration-stage delete answered NotFound (after a successful or
swallowed propagation step). -/
theorem C8_notfound_delete_swallowed :
    (∀ (env : Env) (now : Int) (nc : NodeClaim) (l : Condition),
      condIsTrue nc.registered = false →
      nc.launched = some l → l.status ≠ CondStatus.cTrue →
      launchTimeout ≤ now - l.lastTransitionTime →
      env.deleteResp 0 = some KErr.notFound →
      Reconcile env now nc = ⟨⟨false, 0⟩, none, [Effect.deleteClaim launchTimeoutReason]⟩) ∧
    (∀ (env : Env) (now : Int) (nc : NodeClaim) (l r : Condition),
      nc.launched = some l → l.status = CondStatus.cTrue →
      nc.registered = some r → r.status ≠ CondStatus.cTrue →
      registrationTimeout ≤ now - r.lastTransitionTime →
      ignoreNotFound (updateNodePoolRegistrationHealth env nc).1 = none →
      env.deleteResp 0 = some KErr.notFound →
      Reconcile env now nc =
        ⟨⟨false, 0⟩, none,
         (updateNodePoolRegistrationHealth env nc).2
           ++ [Effect.deleteClaim registrationTimeoutReason]⟩) := by
  constructor
  · intro env now nc l hreg hl hls ht hd
    have hnpos : ¬ 0 < launchTimeout - (now - l.lastTransitionTime) := by omega
    unfold Reconcile
    simp [hreg, hl, hls, hnpos, deleteNodeClaimForTimeout, hd, LaunchTimeout]
  · intro env now nc l r hl hls hr hrs ht hu hd
    have hreg : condIsTrue nc.registered = false := by
      rw [hr]; simp [condIsTrue, hrs]
    have hnpos : ¬ 0 < registrationTimeout - (now - r.lastTransitionTime) := by omega
    unfold Reconcile registrationStage
    simp [hreg, hl, hls, hr, hrs, hnpos, condIsTrue, hu,
          deleteNodeClaimForTimeout, hd, RegistrationTimeout]

/-- Witness for C8: both stages against a store whose Delete answers
NotFound (claim already gone). -/
theorem C8_notfound_delete_swallowed_witness :
    Reconcile envDelNotFound launchTimeout
        ⟨some launchedFalse, none, "pool-a", "on-demand"⟩
      = ⟨⟨false, 0⟩, none, [Effect.deleteClaim launchTimeoutReason]⟩ ∧
    Reconcile envDelNotFound registrationTimeout
        ⟨some launchedTrue, some registeredUnknown, "pool-a", "on-demand"⟩
      = ⟨⟨false, 0⟩, none,
         (updateNodePoolRegistrationHealth envDelNotFound
             ⟨some launchedTrue, some registeredUnknown, "pool-a", "on-demand"⟩).2
           ++ [Effect.deleteClaim registrationTimeoutReason]⟩ :=
  ⟨C8_notfound_delete_swallowed.1 envDelNotFound launchTimeout
     ⟨some launchedFalse, none, "pool-a", "on-demand"⟩ launchedFalse
     (by decide) rfl (by decide) (by decide) rfl,
   C8_notfound_delete_swallowed.2 envDelNotFound registrationTimeout
     ⟨some launchedTrue, some registeredUnknown, "pool-a", "on-demand"⟩
     launchedTrue registeredUnknown rfl (by decide) rfl (by decide) (by decide)
     (by decide) rfl⟩

/-- C9: the disruption counter keyed by reason, pool and capacity type
is incremented exactly when the Delete call itself succeeds: on any
Delete error the trace holds the Delete and no increment; on success it
holds the Delete followed by the one increment; and at reconcile level
a NotFound delete still reports overall success while the trace carries
no increment, so a claim already deleted on a prior attempt is never
counted twice. -/
theorem C9_counter_only_on_successful_delete :
    (∀ (env : Env) (i : Nat) (t : NodeClaimTimeout) (nc : NodeClaim) (e : KErr),
      env.deleteResp i = some e →
      deleteNodeClaimForTimeout env i t nc = (some e, [Effect.deleteClaim t.reason])) ∧
    (∀ (env : Env) (i : Nat) (t : NodeClaimTimeout) (nc : NodeClaim),
      env.deleteResp i = none →
      deleteNodeClaimForTimeout env i t nc =
        (none, [Effect.deleteClaim t.reason,
                Effect.incCounter t.reason nc.nodePoolLabel nc.capacityTypeLabel])) ∧
    (∀ (env : Env) (now : Int) (nc : NodeClaim) (l : Condition),
      condIsTrue nc.registered = false →
      nc.launched = some l → l.status ≠ CondStatus.cTrue →
      launchTimeout ≤ now - l.lastTransitionTime →
      env.deleteResp 0 = some KErr.notFound →
      (Reconcile env now nc).result = ⟨false, 0⟩ ∧
      (Reconcile env now nc).err = none ∧
      incCount (Reconcile env now nc).effects = 0) := by
  refine ⟨?_, ?_, ?_⟩
  · intro env i t nc e hd
    unfold deleteNodeClaimForTimeout
    simp [hd]
  · intro env i t nc hd
    unfold deleteNodeClaimForTimeout
    simp [hd]
  · intro env now nc l hreg hl hls ht hd
    have hnpos : ¬ 0 < launchTimeout - (now - l.lastTransitionTime) := by omega
    unfold Reconcile
    simp [hreg, hl, hls, hnpos, deleteNodeClaimForTimeout, hd, LaunchTimeout,
          incCount, List.countP_cons]

/-- Witness for C9: all three conjuncts against concrete stores — an
erroring Delete, a successful Delete, and a reconcile-level NotFound. -/
theorem C9_counter_only_on_successful_delete_witness :
    deleteNodeClaimForTimeout envDelNotFound 0 LaunchTimeout
        ⟨some launchedFalse, none, "pool-a", "on-demand"⟩
      = (some KErr.notFound, [Effect.deleteClaim launchTimeoutReason]) ∧
    deleteNodeClaimForTimeout envAllOk 0 RegistrationTimeout
        ⟨some launchedTrue, some registeredUnknown, "pool-a", "on-demand"⟩
      = (none, [Effect.deleteClaim registrationTimeoutReason,
                Effect.incCounter registrationTimeoutReason "pool-a" "on-demand"]) ∧
    incCount (Reconcile envDelNotFound launchTimeout
        ⟨some launchedFalse, none, "pool-a", "on-demand"⟩).effects = 0 :=
  ⟨by
    have h := C9_counter_only_on_successful_delete.1 envDelNotFound 0 LaunchTimeout
      ⟨some launchedFalse, none, "pool-a", "on-demand"⟩ KErr.notFound rfl
    simpa [LaunchTimeout] using h,
   by
    have h := C9_counter_only_on_successful_delete.2.1 envAllOk 0 RegistrationTimeout
      ⟨some launchedTrue, some registeredUnknown, "pool-a", "on-demand"⟩ rfl
    simpa [RegistrationTimeout] using h,
   (C9_counter_only_on_successful_delete.2.2 envDelNotFound launchTimeout
      ⟨some launchedFalse, none, "pool-a", "on-demand"⟩ launchedFalse
      (by decide) rfl (by decide) (by decide) rfl).2.2⟩
